import Mathlib

/-!
# Child-resource factory of the request processor reconciler

A shallow embedding of

* `pkg/reconciler/v1alpha1/requestprocessor/resources/function.go` (`MakeFunction`),
* the `Build` / `ProcessorSpec` declarations of
  `pkg/apis/streaming/v1alpha1/processor_types.go`,

followed by the properties established about them.

Conventions of the embedding.

* A Go call either returns its result values or raises a run-time panic; a call is
  therefore a value of `Except Panic ρ`, with `ρ` the tuple of returned values.
* A Go pointer that may be `nil` is an `Option`; a Go slice or map is a `List`
  (the `nil` slice and the `nil` map are the empty list).
* Go `int` indexes are `Int`; the only operations applied to them are comparisons.
* Declarations that `function.go` uses but that live outside the embedded files
  (`names.Item`, `kmeta.NewControllerRef`, `makeLabels`, the `FunctionSpec` and
  `FunctionStatus` types) are parameters of the development.
* `MakeFunction` is embedded twice: as a function of its arguments (`MakeFunction`),
  and with the program state passed explicitly (`MakeFunctionSt`), where the
  functions it calls are arbitrary steps on that state. `MakeFunctionSt_refines`
  relates the two.
-/

namespace Go

/-- Run-time panics raised by the embedded code. -/
inductive Panic where
  /-- The panic `index out of range` of a slice index expression `a[i]`. -/
  | indexOutOfRange (i : Int) (len : Nat)
  /-- The panic `invalid memory address or nil pointer dereference` of `*p` on a
  `nil` pointer. -/
  | nilDereference
deriving DecidableEq, Repr

/-- A value of the Go interface type `error`. -/
structure Error where
  msg : String
deriving DecidableEq, Repr

/-- The Go index expression `a[i]` on a slice: the element at position `i` when
`0 <= i < len(a)`, the run-time panic `index out of range` otherwise. -/
def index {α : Type} (a : List α) (i : Int) : Except Panic α :=
  if 0 ≤ i then
    match a[i.toNat]? with
    | some x => .ok x
    | none => .error (.indexOutOfRange i a.length)
  else
    .error (.indexOutOfRange i a.length)

end Go

namespace metav1

/-- The struct `metav1.TypeMeta`. -/
structure TypeMeta where
  Kind : String
  APIVersion : String
deriving DecidableEq, Repr

/-- The struct `metav1.OwnerReference`. -/
structure OwnerReference where
  APIVersion : String
  Kind : String
  Name : String
  UID : String
  Controller : Option Bool
  BlockOwnerDeletion : Option Bool
deriving DecidableEq, Repr

/-- The struct `metav1.ObjectMeta`; timestamps are counted in seconds. -/
structure ObjectMeta where
  Name : String
  GenerateName : String
  Namespace : String
  SelfLink : String
  UID : String
  ResourceVersion : String
  Generation : Int
  CreationTimestamp : Option Int
  DeletionTimestamp : Option Int
  DeletionGracePeriodSeconds : Option Int
  Labels : List (String × String)
  Annotations : List (String × String)
  OwnerReferences : List OwnerReference
  Finalizers : List String
  ClusterName : String
deriving DecidableEq, Repr

/-- The zero value of `metav1.TypeMeta`. -/
def TypeMeta.zero : TypeMeta :=
  { Kind := "", APIVersion := "" }

/-- The zero value of `metav1.ObjectMeta`. -/
def ObjectMeta.zero : ObjectMeta :=
  { Name := "", GenerateName := "", Namespace := "", SelfLink := "", UID := "",
    ResourceVersion := "", Generation := 0, CreationTimestamp := none,
    DeletionTimestamp := none, DeletionGracePeriodSeconds := none, Labels := [],
    Annotations := [], OwnerReferences := [], Finalizers := [], ClusterName := "" }

end metav1

namespace buildv1alpha1

/-- The struct `buildv1alpha1.Function`, of the shape every resource of the package
has (compare `Container` in `container_types.go`): type and object metadata, a
`Spec` and a `Status`. The spec and status types are parameters. -/
structure Function (FunctionSpec FunctionStatus : Type) where
  TypeMeta : metav1.TypeMeta
  ObjectMeta : metav1.ObjectMeta
  Spec : FunctionSpec
  Status : FunctionStatus
deriving DecidableEq, Repr

end buildv1alpha1

namespace runv1alpha1

/-- The build of one item of a request processor, as `MakeFunction` reads it:
`Function` is a pointer to an inline function definition, `nil` when absent. -/
structure Build (FunctionSpec : Type) where
  Function : Option FunctionSpec
deriving DecidableEq, Repr

/-- One item of `RequestProcessor.Spec`. `MakeFunction` selects `.Build.Function`
from the item without a test on `Build`, and `Build` is embedded accordingly as a
struct-valued field. -/
structure RequestProcessorSpecItem (FunctionSpec : Type) where
  Build : Build FunctionSpec
deriving DecidableEq, Repr

/-- The struct `runv1alpha1.RequestProcessor`: object metadata (`rp.Namespace` is
the promoted field `rp.ObjectMeta.Namespace`) and a `Spec` that is a slice of
items. -/
structure RequestProcessor (FunctionSpec : Type) where
  ObjectMeta : metav1.ObjectMeta
  Spec : List (RequestProcessorSpecItem FunctionSpec)
deriving DecidableEq, Repr

end runv1alpha1

namespace resources

open Go

/-- The functions `MakeFunction` calls that are declared outside `function.go`:
`names.Item`, `kmeta.NewControllerRef` (the pointer it returns is never `nil`) and
`makeLabels`. -/
structure Deps (FunctionSpec : Type) where
  Item : runv1alpha1.RequestProcessor FunctionSpec → Int → String
  NewControllerRef : runv1alpha1.RequestProcessor FunctionSpec → metav1.OwnerReference
  makeLabels : runv1alpha1.RequestProcessor FunctionSpec → List (String × String)

/-- The values a call of `MakeFunction` returns: `(*buildv1alpha1.Function, error)`. -/
abbrev Returned (FunctionSpec FunctionStatus : Type) : Type :=
  Option (buildv1alpha1.Function FunctionSpec FunctionStatus) × Option Go.Error

/-- Embedding of `MakeFunction` (`function.go`, lines 28-46).

```go
func MakeFunction(rp *runv1alpha1.RequestProcessor, i int) (*buildv1alpha1.Function, error) {
	if rp.Spec[i].Build.Function == nil {
		return nil, nil
	}
	function := &buildv1alpha1.Function{
		ObjectMeta: metav1.ObjectMeta{
			Name:      names.Item(rp, i),
			Namespace: rp.Namespace,
			OwnerReferences: []metav1.OwnerReference{
				*kmeta.NewControllerRef(rp),
			},
			Labels: makeLabels(rp),
		},
		Spec: *rp.Spec[i].Build.Function,
	}
	return function, nil
}
```

The fields a composite literal omits take their zero value; the zero value of the
status type is `default`. -/
def MakeFunction {FunctionSpec FunctionStatus : Type} [Inhabited FunctionStatus]
    (d : Deps FunctionSpec) (rp : runv1alpha1.RequestProcessor FunctionSpec) (i : Int) :
    Except Panic (Returned FunctionSpec FunctionStatus) := do
  let item ← index rp.Spec i
  match item.Build.Function with
  | none => return (none, none)
  | some spec =>
    let function : buildv1alpha1.Function FunctionSpec FunctionStatus :=
      { TypeMeta := metav1.TypeMeta.zero
        ObjectMeta :=
          { metav1.ObjectMeta.zero with
            Name := d.Item rp i
            Namespace := rp.ObjectMeta.Namespace
            OwnerReferences := [d.NewControllerRef rp]
            Labels := d.makeLabels rp }
        Spec := spec
        Status := default }
    return (some function, none)

end resources

namespace resources

open Go

/-- The program state a call of `MakeFunction` runs in: the object the pointer `rp`
designates, which the call and the functions it calls may read and write through
`rp`, and the rest of the state of the program (`world`: package variables, the
clock, the cluster), which the functions it calls may consult and change. -/
structure Store (FunctionSpec World : Type) where
  object : runv1alpha1.RequestProcessor FunctionSpec
  world : World

/-- A Go function that receives `rp`, as a step on the program state: from a state
it panics, or returns a value and the state it leaves. -/
abbrev Step (FunctionSpec World α : Type) : Type :=
  Store FunctionSpec World → Except Panic (α × Store FunctionSpec World)

/-- The functions `MakeFunction` calls, as steps on the program state: nothing is
assumed of what they read or write. -/
structure DepsSt (FunctionSpec World : Type) where
  Item : Int → Step FunctionSpec World String
  NewControllerRef : Step FunctionSpec World metav1.OwnerReference
  makeLabels : Step FunctionSpec World (List (String × String))

/-- A point of the evaluation of the composite literal of `MakeFunction` (lines
33-43). Go evaluates the three calls of the literal in the order of the text and
does not fix where, between them, the plain reads `rp.Namespace` and
`*rp.Spec[i].Build.Function` take place. -/
inductive ReadPoint where
  /-- Before the call of `names.Item`. -/
  | atEntry
  /-- Between the calls of `names.Item` and `kmeta.NewControllerRef`. -/
  | afterItem
  /-- Between the calls of `kmeta.NewControllerRef` and `makeLabels`. -/
  | afterNewControllerRef
  /-- After the call of `makeLabels`. -/
  | afterMakeLabels
deriving DecidableEq, Repr

/-- Embedding of `MakeFunction` (`function.go`, lines 28-46) with the program state
passed explicitly.

* line 29, `rp.Spec[i].Build.Function == nil`: a read of the object in the state at
  entry; it panics outside the bounds of `rp.Spec`;
* line 30, `return nil, nil`: the state at entry is the state left;
* lines 35, 38, 40, `names.Item(rp, i)`, `*kmeta.NewControllerRef(rp)`,
  `makeLabels(rp)`: three steps, in this order;
* line 36, `rp.Namespace`: a read of the object in the state at the point
  `namespaceAt` (`afterItem` in the order of the text);
* line 42, `*rp.Spec[i].Build.Function`: a second read of the object, in the state
  at the point `specAt` (`afterMakeLabels` in the order of the text); it panics
  outside the bounds and on a `nil` pointer;
* line 45, `return function, nil`: the state `makeLabels` left is the state left.

The body holds no assignment: every change of state comes from one of the three
steps. -/
def MakeFunctionSt {FunctionSpec FunctionStatus World : Type} [Inhabited FunctionStatus]
    (d : DepsSt FunctionSpec World) (namespaceAt specAt : ReadPoint) (i : Int) :
    Step FunctionSpec World (Returned FunctionSpec FunctionStatus) := fun s₀ => do
  let item ← index s₀.object.Spec i
  match item.Build.Function with
  | none => return ((none, none), s₀)
  | some _ =>
    let named ← d.Item i s₀
    let referenced ← d.NewControllerRef named.2
    let labelled ← d.makeLabels referenced.2
    let stateAt : ReadPoint → Store FunctionSpec World := fun
      | .atEntry => s₀
      | .afterItem => named.2
      | .afterNewControllerRef => referenced.2
      | .afterMakeLabels => labelled.2
    let item₂ ← index (stateAt specAt).object.Spec i
    match item₂.Build.Function with
    | none => throw .nilDereference
    | some spec =>
      let function : buildv1alpha1.Function FunctionSpec FunctionStatus :=
        { TypeMeta := metav1.TypeMeta.zero
          ObjectMeta :=
            { metav1.ObjectMeta.zero with
              Name := named.1
              Namespace := (stateAt namespaceAt).object.ObjectMeta.Namespace
              OwnerReferences := [referenced.1]
              Labels := labelled.1 }
          Spec := spec
          Status := default }
      return ((some function, none), labelled.2)

/-- Modelled from the spec: the contract of `names.Item`, `kmeta.NewControllerRef`
and `makeLabels`, whose bodies are not part of `function.go`. The name and label
strategy is a "deterministic derivation of child resource names and ownership labels
from parent identity", and the factory is "pure, deterministic, no cluster access".
The steps `d` meet the contract given by the functions `p` when each step, from
every state, returns the value `p` gives for the object and its arguments, whatever
the rest of the state, and leaves the object as it found it; the rest of the state
may change. -/
structure DepsSt.Meets {FunctionSpec World : Type} (d : DepsSt FunctionSpec World)
    (p : Deps FunctionSpec) : Prop where
  Item : ∀ (s : Store FunctionSpec World) (i : Int),
    ∃ w, d.Item i s = .ok (p.Item s.object i, { s with world := w })
  NewControllerRef : ∀ s : Store FunctionSpec World,
    ∃ w, d.NewControllerRef s = .ok (p.NewControllerRef s.object, { s with world := w })
  makeLabels : ∀ s : Store FunctionSpec World,
    ∃ w, d.makeLabels s = .ok (p.makeLabels s.object, { s with world := w })

end resources

namespace streamingv1alpha1

/-- The struct `Build` of `processor_types.go`, lines 60-66. -/
structure Build where
  /-- ContainerRef references a container in this namespace. -/
  ContainerRef : String
  /-- FunctionRef references an application in this namespace. -/
  FunctionRef : String
deriving DecidableEq, Repr

/-- The struct `StreamBinding` of `processor_types.go`, lines 68-75. -/
structure StreamBinding where
  Stream : String
  Alias : String
deriving DecidableEq, Repr

/-- The struct `ProcessorSpec` of `processor_types.go`, lines 39-58; the pod
template type `corev1.PodSpec` is a parameter. -/
structure ProcessorSpec (PodSpec : Type) where
  Build : Option Build
  Inputs : List StreamBinding
  Outputs : List StreamBinding
  Template : Option PodSpec
deriving DecidableEq, Repr

/-- The build a `Build` reference resolves to: a container or a function of the
namespace, by name. -/
inductive BuildTarget where
  | container (name : String)
  | function (name : String)
deriving DecidableEq, Repr

/-- The specification errors of a build reference. -/
inductive SpecificationError where
  /-- Both `ContainerRef` and `FunctionRef` are populated. -/
  | ambiguousBuildReference
  /-- The build is present and neither reference is populated. -/
  | missingBuildReference
deriving DecidableEq, Repr

/-- Modelled from the spec: the check of build-reference exclusivity, which is not
part of `processor_types.go`. "A `Processor.Spec.Build` with both `ContainerRef`
and `FunctionRef` populated (or neither, when build is non-nil) is rejected/treated
as a specification error, never silently picking one"; a build with exactly one
reference populated is "a discriminated choice between reference a Container and
reference a Function". A string field is populated when it is not empty. -/
def Build.resolve (b : Build) : Except SpecificationError BuildTarget :=
  if b.ContainerRef ≠ "" then
    if b.FunctionRef ≠ "" then .error .ambiguousBuildReference
    else .ok (.container b.ContainerRef)
  else
    if b.FunctionRef ≠ "" then .ok (.function b.FunctionRef)
    else .error .missingBuildReference

/-- Modelled from the spec: the resolution of the optional build of a processor,
which is not part of `processor_types.go`. "If no build is referenced, returns
`none` (no workload is created) - this is not an error"; a build that is present is
resolved by `Build.resolve`. -/
def ProcessorSpec.resolveBuild {PodSpec : Type} (s : ProcessorSpec PodSpec) :
    Except SpecificationError (Option BuildTarget) :=
  match s.Build with
  | none => .ok none
  | some b =>
    match b.resolve with
    | .ok t => .ok (some t)
    | .error e => .error e

end streamingv1alpha1

/-! ## Sample objects -/

namespace resources

/-- A naming function in the role of `names.Item`. -/
def sampleItem (rp : runv1alpha1.RequestProcessor String) (i : Int) : String :=
  rp.ObjectMeta.Name ++ "-" ++ toString i

/-- Helper functions over function definitions that are plain strings. -/
def sampleDeps : Deps String :=
  { Item := sampleItem
    NewControllerRef := fun rp =>
      { APIVersion := "run.projectriff.io/v1alpha1", Kind := "RequestProcessor",
        Name := rp.ObjectMeta.Name, UID := rp.ObjectMeta.UID,
        Controller := some true, BlockOwnerDeletion := some true }
    makeLabels := fun rp => [("run.projectriff.io/requestprocessor", rp.ObjectMeta.Name)] }

/-- A request processor `square` in namespace `default` with three items: an inline
function `js`, no inline function, an inline function `java`. -/
def sampleParent : runv1alpha1.RequestProcessor String :=
  { ObjectMeta := { metav1.ObjectMeta.zero with Name := "square", Namespace := "default" }
    Spec := [⟨⟨some "js"⟩⟩, ⟨⟨none⟩⟩, ⟨⟨some "java"⟩⟩] }

/-- The call of `MakeFunction` on the sample objects, with a status of type `Unit`. -/
def sampleCall (i : Int) : Except Go.Panic (Returned String Unit) :=
  MakeFunction sampleDeps sampleParent i

/-- The sample helper functions as steps that count their calls in the rest of the
state and leave the object alone. -/
def sampleDepsSt : DepsSt String Nat :=
  { Item := fun i s => .ok (sampleDeps.Item s.object i, { s with world := s.world + 1 })
    NewControllerRef := fun s =>
      .ok (sampleDeps.NewControllerRef s.object, { s with world := s.world + 1 })
    makeLabels := fun s => .ok (sampleDeps.makeLabels s.object, { s with world := s.world + 1 }) }

/-- Steps whose `Item` writes through `rp`: it empties `rp.Spec`. -/
def writingDepsSt : DepsSt String Nat :=
  { sampleDepsSt with
    Item := fun i s =>
      .ok (sampleDeps.Item s.object i, { s with object := { s.object with Spec := [] } }) }

/-- Steps whose `makeLabels` consults the rest of the state: it labels the function
with the number of calls counted so far. -/
def countingDepsSt : DepsSt String Nat :=
  { sampleDepsSt with
    makeLabels := fun s => .ok ([("calls", toString s.world)], s) }

end resources

namespace streamingv1alpha1

/-- A processor specification whose build populates both references. -/
def sampleAmbiguous : ProcessorSpec Unit :=
  { Build := some { ContainerRef := "upper", FunctionRef := "square" }
    Inputs := [{ Stream := "in", Alias := "" }]
    Outputs := []
    Template := none }

end streamingv1alpha1

/-! ## Properties -/

namespace resources

open Go

section lemmas

variable {FunctionSpec FunctionStatus : Type} [Inhabited FunctionStatus]

/-- Inside the bounds of a slice the index expression yields the element at that
position. -/
theorem index_of_getElem? {α : Type} (a : List α) (i : Int) (x : α) (h0 : 0 ≤ i)
    (hx : a[i.toNat]? = some x) : index a i = .ok x := by
  simp [index, h0, hx]

/-- Outside the bounds of a slice the index expression panics. -/
theorem index_out_of_range {α : Type} (a : List α) (i : Int)
    (h : i < 0 ∨ (a.length : Int) ≤ i) :
    index a i = .error (.indexOutOfRange i a.length) := by
  unfold index
  split
  · rename_i h0
    have hlen : a.length ≤ i.toNat := by omega
    have hnone : a[i.toNat]? = none := List.getElem?_eq_none hlen
    simp [hnone]
  · rfl

/-- An index inside the bounds of a slice designates an element of it. -/
theorem exists_item_of_in_range {α : Type} (a : List α) (i : Int) (h0 : 0 ≤ i)
    (h1 : i < (a.length : Int)) : ∃ x, a[i.toNat]? = some x := by
  have hlt : i.toNat < a.length := by omega
  exact ⟨a[i.toNat], List.getElem?_eq_getElem hlt⟩

/-- On an item without inline function, `MakeFunction` returns `nil, nil`. -/
theorem MakeFunction_absent (d : Deps FunctionSpec)
    (rp : runv1alpha1.RequestProcessor FunctionSpec) (i : Int)
    (item : runv1alpha1.RequestProcessorSpecItem FunctionSpec) (h0 : 0 ≤ i)
    (hitem : rp.Spec[i.toNat]? = some item) (hf : item.Build.Function = none) :
    (MakeFunction d rp i : Except Panic (Returned FunctionSpec FunctionStatus)) =
      .ok (none, none) := by
  have hidx := index_of_getElem? rp.Spec i item h0 hitem
  simp only [MakeFunction, hidx, bind, Except.bind, hf]
  rfl

/-- On an item with an inline function, `MakeFunction` returns the function object
of the composite literal and a `nil` error. -/
theorem MakeFunction_present (d : Deps FunctionSpec)
    (rp : runv1alpha1.RequestProcessor FunctionSpec) (i : Int)
    (item : runv1alpha1.RequestProcessorSpecItem FunctionSpec) (spec : FunctionSpec)
    (h0 : 0 ≤ i) (hitem : rp.Spec[i.toNat]? = some item)
    (hf : item.Build.Function = some spec) :
    (MakeFunction d rp i : Except Panic (Returned FunctionSpec FunctionStatus)) =
      .ok (some
        { TypeMeta := metav1.TypeMeta.zero
          ObjectMeta :=
            { metav1.ObjectMeta.zero with
              Name := d.Item rp i
              Namespace := rp.ObjectMeta.Namespace
              OwnerReferences := [d.NewControllerRef rp]
              Labels := d.makeLabels rp }
          Spec := spec
          Status := default }, none) := by
  have hidx := index_of_getElem? rp.Spec i item h0 hitem
  simp only [MakeFunction, hidx, bind, Except.bind, hf]
  rfl

/-- The embedding with explicit state refines the functional one: when the helper
steps meet their contract, a call of `MakeFunction` that returns `r` in the
functional embedding returns `r` from every state that holds the same object,
wherever the plain reads fall, and leaves that object as it was. -/
theorem MakeFunctionSt_refines {World : Type} (d : DepsSt FunctionSpec World)
    (p : Deps FunctionSpec) (hd : d.Meets p) (namespaceAt specAt : ReadPoint)
    (s : Store FunctionSpec World) (i : Int)
    (r : Returned FunctionSpec FunctionStatus) (hr : MakeFunction p s.object i = .ok r) :
    ∃ w, MakeFunctionSt d namespaceAt specAt i s = .ok (r, { s with world := w }) := by
  unfold MakeFunction at hr
  unfold MakeFunctionSt
  cases hidx : index s.object.Spec i with
  | error e => simp [hidx, bind, Except.bind] at hr
  | ok item =>
    cases hf : item.Build.Function with
    | none =>
      simp only [hidx, bind, Except.bind, hf, pure, Except.pure, Except.ok.injEq] at hr
      subst hr
      exact ⟨s.world, by simp [hidx, bind, Except.bind, hf, pure, Except.pure]⟩
    | some spec =>
      simp only [hidx, bind, Except.bind, hf, pure, Except.pure, Except.ok.injEq] at hr
      subst hr
      obtain ⟨w₁, h₁⟩ := hd.Item s i
      obtain ⟨w₂, h₂⟩ := hd.NewControllerRef { s with world := w₁ }
      obtain ⟨w₃, h₃⟩ := hd.makeLabels { s with world := w₂ }
      refine ⟨w₃, ?_⟩
      simp only [Store.mk.injEq] at h₂ h₃
      cases namespaceAt <;> cases specAt <;>
        simp [hidx, bind, Except.bind, hf, pure, Except.pure, h₁, h₂, h₃]

/-- The sample helper steps meet the contract given by the sample helper functions. -/
theorem sampleDepsSt_meets : sampleDepsSt.Meets sampleDeps :=
  { Item := fun s _ => ⟨s.world + 1, rfl⟩
    NewControllerRef := fun s => ⟨s.world + 1, rfl⟩
    makeLabels := fun s => ⟨s.world + 1, rfl⟩ }

/-- A helper that writes through `rp` is seen by the caller. With an `Item` that
empties `rp.Spec`: when the second read of `rp.Spec[0]` comes after the calls it
panics, and when it comes before them the call returns and leaves an object that is
not the one it found. The functional embedding returns a function there. -/
theorem MakeFunctionSt_writing_helper :
    (MakeFunctionSt writingDepsSt .afterItem .afterMakeLabels 0 ⟨sampleParent, 0⟩ :
        Except Panic (Returned String Unit × Store String Nat)) =
      .error (.indexOutOfRange 0 0) ∧
    (∃ (r : Returned String Unit) (s₁ : Store String Nat),
      MakeFunctionSt writingDepsSt .afterItem .atEntry 0 ⟨sampleParent, 0⟩ = .ok (r, s₁) ∧
      s₁.object ≠ sampleParent) ∧
    ∃ function, sampleCall 0 = .ok (some function, none) :=
  ⟨rfl, ⟨_, _, rfl, by decide⟩, _, rfl⟩

/-- A helper that consults the rest of the state makes two calls differ: with a
`makeLabels` that reads the call counter, the calls from the counters `0` and `5`
return functions with different labels. -/
theorem MakeFunctionSt_counting_helper :
    ∃ (f₀ f₅ : buildv1alpha1.Function String Unit) (s₀ s₅ : Store String Nat),
      MakeFunctionSt countingDepsSt .afterItem .afterMakeLabels 0 ⟨sampleParent, 0⟩ =
        .ok ((some f₀, none), s₀) ∧
      MakeFunctionSt countingDepsSt .afterItem .afterMakeLabels 0 ⟨sampleParent, 5⟩ =
        .ok ((some f₅, none), s₅) ∧
      f₀.ObjectMeta.Labels ≠ f₅.ObjectMeta.Labels :=
  ⟨_, _, _, _, rfl, rfl, by decide⟩

end lemmas

section claims

variable {FunctionSpec FunctionStatus : Type} [Inhabited FunctionStatus]

/-- C1. For an index `i` with `0 <= i < len(rp.Spec)`, `MakeFunction(rp, i)` returns a
`nil` function exactly when the inline function definition of item `i` is `nil`;
when the definition is present the call returns a function that is not `nil`. In
both cases the call returns. -/
theorem MakeFunction_nil_iff (d : Deps FunctionSpec)
    (rp : runv1alpha1.RequestProcessor FunctionSpec) (i : Int)
    (h0 : 0 ≤ i) (h1 : i < (rp.Spec.length : Int)) :
    ∃ item, rp.Spec[i.toNat]? = some item ∧
      ((∃ err, (MakeFunction d rp i : Except Panic (Returned FunctionSpec FunctionStatus)) =
          .ok (none, err)) ↔ item.Build.Function = none) ∧
      (item.Build.Function ≠ none →
        ∃ function err,
          (MakeFunction d rp i : Except Panic (Returned FunctionSpec FunctionStatus)) =
            .ok (some function, err)) ∧
      (∃ r, (MakeFunction d rp i : Except Panic (Returned FunctionSpec FunctionStatus)) =
        .ok r) := by
  obtain ⟨item, hitem⟩ := exists_item_of_in_range rp.Spec i h0 h1
  refine ⟨item, hitem, ?_⟩
  cases hf : item.Build.Function with
  | none =>
    have h : (MakeFunction d rp i : Except Panic (Returned FunctionSpec FunctionStatus)) =
        .ok (none, none) := MakeFunction_absent d rp i item h0 hitem hf
    exact ⟨⟨fun _ => rfl, fun _ => ⟨none, h⟩⟩, fun hne => absurd rfl hne, ⟨_, h⟩⟩
  | some spec =>
    have h : (MakeFunction d rp i : Except Panic (Returned FunctionSpec FunctionStatus)) =
        .ok (some _, none) := MakeFunction_present d rp i item spec h0 hitem hf
    refine ⟨⟨?_, fun hcontra => by cases hcontra⟩, fun _ => ⟨_, _, h⟩, ⟨_, h⟩⟩
    rintro ⟨err, herr⟩
    rw [h] at herr
    cases herr

/-- Witness of C1 on the sample request processor, at the item without inline
function. -/
theorem MakeFunction_nil_iff_witness :
    ∃ item, sampleParent.Spec[(1 : Int).toNat]? = some item ∧
      ((∃ err, sampleCall 1 = .ok (none, err)) ↔ item.Build.Function = none) ∧
      (item.Build.Function ≠ none → ∃ function err, sampleCall 1 = .ok (some function, err)) ∧
      (∃ r, sampleCall 1 = .ok r) :=
  MakeFunction_nil_iff sampleDeps sampleParent 1 (by decide) (by decide)

/-- C2. For an index `i` with `0 <= i < len(rp.Spec)`, `MakeFunction(rp, i)` returns,
and the error it returns is `nil`, whether or not item `i` has an inline function. -/
theorem MakeFunction_error_nil (d : Deps FunctionSpec)
    (rp : runv1alpha1.RequestProcessor FunctionSpec) (i : Int)
    (h0 : 0 ≤ i) (h1 : i < (rp.Spec.length : Int)) :
    ∃ function, (MakeFunction d rp i : Except Panic (Returned FunctionSpec FunctionStatus)) =
      .ok (function, none) := by
  obtain ⟨item, hitem⟩ := exists_item_of_in_range rp.Spec i h0 h1
  cases hf : item.Build.Function with
  | none => exact ⟨none, MakeFunction_absent d rp i item h0 hitem hf⟩
  | some spec => exact ⟨_, MakeFunction_present d rp i item spec h0 hitem hf⟩

/-- Witness of C2 on the sample request processor, at an item with an inline
function. -/
theorem MakeFunction_error_nil_witness :
    ∃ function, sampleCall 2 = .ok (function, none) :=
  MakeFunction_error_nil sampleDeps sampleParent 2 (by decide) (by decide)

/-- C3, as the code behaves. For an index `i` outside the bounds of `rp.Spec`
(`i < 0` or `i >= len(rp.Spec)`), `MakeFunction(rp, i)` does not return: the index
expression `rp.Spec[i]` raises the run-time panic `index out of range`, and neither
a function nor an error value is returned. -/
theorem MakeFunction_out_of_range_panics (d : Deps FunctionSpec)
    (rp : runv1alpha1.RequestProcessor FunctionSpec) (i : Int)
    (h : i < 0 ∨ (rp.Spec.length : Int) ≤ i) :
    (MakeFunction d rp i : Except Panic (Returned FunctionSpec FunctionStatus)) =
      .error (.indexOutOfRange i rp.Spec.length) := by
  have hidx := index_out_of_range rp.Spec i h
  simp only [MakeFunction, hidx, bind, Except.bind]

/-- Witness of the behaviour outside the bounds, at the index `-1` of the sample
request processor. -/
theorem MakeFunction_out_of_range_panics_witness :
    sampleCall (-1) = .error (.indexOutOfRange (-1) sampleParent.Spec.length) :=
  MakeFunction_out_of_range_panics sampleDeps sampleParent (-1) (Or.inl (by decide))

/-- C3, as stated, fails. The sample request processor has three items; at the index
`3` the call raises the panic `index out of range` and so does not return a `nil`
function with an error that is not `nil`. -/
theorem MakeFunction_out_of_range_no_error :
    sampleCall 3 = .error (.indexOutOfRange 3 3) ∧
      ¬ ∃ err : Go.Error, sampleCall 3 = .ok (none, some err) := by
  have h : sampleCall 3 = .error (.indexOutOfRange 3 3) := rfl
  refine ⟨h, ?_⟩
  rintro ⟨err, herr⟩
  rw [h] at herr
  cases herr

/-- C4. Let `names.Item`, `kmeta.NewControllerRef` and `makeLabels` meet their
contract, and let the plain reads of the literal fall where they may. For an index
`i` with `0 <= i < len(rp.Spec)`, a call `MakeFunction(rp, i)` returns a result `r`,
the one the functional embedding gives, and leaves the object `rp` points to as it
was; a second call on the same `rp` and `i`, whatever has become of the rest of the
program state in between, returns the same `r` (the same `nil` or the same function:
name, namespace, owner references, labels and spec) and again leaves the object as
it was. -/
theorem MakeFunctionSt_deterministic {World : Type} (d : DepsSt FunctionSpec World)
    (p : Deps FunctionSpec) (hd : d.Meets p) (namespaceAt specAt : ReadPoint)
    (s : Store FunctionSpec World) (i : Int)
    (h0 : 0 ≤ i) (h1 : i < (s.object.Spec.length : Int)) :
    ∃ (r : Returned FunctionSpec FunctionStatus) (s₁ : Store FunctionSpec World),
      MakeFunctionSt d namespaceAt specAt i s = .ok (r, s₁) ∧
      s₁.object = s.object ∧
      MakeFunction p s.object i = .ok r ∧
      ∀ w : World, ∃ s₂ : Store FunctionSpec World,
        MakeFunctionSt d namespaceAt specAt i { s₁ with world := w } = .ok (r, s₂) ∧
        s₂.object = s.object := by
  obtain ⟨item, hitem⟩ := exists_item_of_in_range s.object.Spec i h0 h1
  have hret : ∃ r, (MakeFunction p s.object i :
      Except Panic (Returned FunctionSpec FunctionStatus)) = .ok r := by
    cases hf : item.Build.Function with
    | none => exact ⟨_, MakeFunction_absent p s.object i item h0 hitem hf⟩
    | some spec => exact ⟨_, MakeFunction_present p s.object i item spec h0 hitem hf⟩
  obtain ⟨r, hr⟩ := hret
  obtain ⟨w₁, hfirst⟩ := MakeFunctionSt_refines d p hd namespaceAt specAt s i r hr
  refine ⟨r, { s with world := w₁ }, hfirst, rfl, hr, fun w => ?_⟩
  obtain ⟨w₂, hsecond⟩ :=
    MakeFunctionSt_refines d p hd namespaceAt specAt { s with world := w } i r hr
  exact ⟨{ s with world := w₂ }, hsecond, rfl⟩

/-- Witness of C4 on the sample request processor, at an item with an inline
function, with helper functions that count their calls. -/
theorem MakeFunctionSt_deterministic_witness :
    ∃ (r : Returned String Unit) (s₁ : Store String Nat),
      MakeFunctionSt sampleDepsSt .afterItem .afterMakeLabels 0 ⟨sampleParent, 0⟩ =
        .ok (r, s₁) ∧
      s₁.object = sampleParent ∧
      MakeFunction sampleDeps sampleParent 0 = .ok r ∧
      ∀ w : Nat, ∃ s₂ : Store String Nat,
        MakeFunctionSt sampleDepsSt .afterItem .afterMakeLabels 0 { s₁ with world := w } =
          .ok (r, s₂) ∧
        s₂.object = sampleParent :=
  MakeFunctionSt_deterministic sampleDepsSt sampleDeps sampleDepsSt_meets .afterItem
    .afterMakeLabels ⟨sampleParent, 0⟩ 0
    (by decide) (by decide)

/-- C6. For an index `i` inside the bounds whose item has an inline function, the
function `MakeFunction(rp, i)` returns has the name `names.Item(rp, i)` and the
namespace `rp.Namespace`: name and namespace are functions of the parent and the
index alone. -/
theorem MakeFunction_name_namespace (d : Deps FunctionSpec)
    (rp : runv1alpha1.RequestProcessor FunctionSpec) (i : Int)
    (item : runv1alpha1.RequestProcessorSpecItem FunctionSpec) (spec : FunctionSpec)
    (h0 : 0 ≤ i) (hitem : rp.Spec[i.toNat]? = some item)
    (hf : item.Build.Function = some spec) :
    ∃ function : buildv1alpha1.Function FunctionSpec FunctionStatus,
      MakeFunction d rp i = .ok (some function, none) ∧
      function.ObjectMeta.Name = d.Item rp i ∧
      function.ObjectMeta.Namespace = rp.ObjectMeta.Namespace :=
  ⟨_, MakeFunction_present d rp i item spec h0 hitem hf, rfl, rfl⟩

/-- Witness of C6 on the first item of the sample request processor. -/
theorem MakeFunction_name_namespace_witness :
    ∃ function : buildv1alpha1.Function String Unit,
      sampleCall 0 = .ok (some function, none) ∧
      function.ObjectMeta.Name = sampleDeps.Item sampleParent 0 ∧
      function.ObjectMeta.Namespace = sampleParent.ObjectMeta.Namespace :=
  MakeFunction_name_namespace sampleDeps sampleParent 0 ⟨⟨some "js"⟩⟩ "js" (by decide) rfl rfl

/-- C8. For an index `i` inside the bounds whose item has an inline function, the
owner references of the function `MakeFunction(rp, i)` returns are a list of exactly
one entry, the controller reference `kmeta.NewControllerRef(rp)` to the parent. -/
theorem MakeFunction_owner_references (d : Deps FunctionSpec)
    (rp : runv1alpha1.RequestProcessor FunctionSpec) (i : Int)
    (item : runv1alpha1.RequestProcessorSpecItem FunctionSpec) (spec : FunctionSpec)
    (h0 : 0 ≤ i) (hitem : rp.Spec[i.toNat]? = some item)
    (hf : item.Build.Function = some spec) :
    ∃ function : buildv1alpha1.Function FunctionSpec FunctionStatus,
      MakeFunction d rp i = .ok (some function, none) ∧
      function.ObjectMeta.OwnerReferences.length = 1 ∧
      function.ObjectMeta.OwnerReferences = [d.NewControllerRef rp] :=
  ⟨_, MakeFunction_present d rp i item spec h0 hitem hf, rfl, rfl⟩

/-- Witness of C8 on the last item of the sample request processor. -/
theorem MakeFunction_owner_references_witness :
    ∃ function : buildv1alpha1.Function String Unit,
      sampleCall 2 = .ok (some function, none) ∧
      function.ObjectMeta.OwnerReferences.length = 1 ∧
      function.ObjectMeta.OwnerReferences = [sampleDeps.NewControllerRef sampleParent] :=
  MakeFunction_owner_references sampleDeps sampleParent 2 ⟨⟨some "java"⟩⟩ "java" (by decide)
    rfl rfl

/-- C9. For an index `i` inside the bounds whose item has an inline function, the
labels of the function `MakeFunction(rp, i)` returns are `makeLabels(rp)`; the
function returned for any other such index `j` of the same parent carries the same
labels. -/
theorem MakeFunction_labels (d : Deps FunctionSpec)
    (rp : runv1alpha1.RequestProcessor FunctionSpec) (i j : Int)
    (item other : runv1alpha1.RequestProcessorSpecItem FunctionSpec)
    (spec otherSpec : FunctionSpec)
    (hi0 : 0 ≤ i) (hitem : rp.Spec[i.toNat]? = some item)
    (hf : item.Build.Function = some spec)
    (hj0 : 0 ≤ j) (hother : rp.Spec[j.toNat]? = some other)
    (hg : other.Build.Function = some otherSpec) :
    ∃ fi fj : buildv1alpha1.Function FunctionSpec FunctionStatus,
      MakeFunction d rp i = .ok (some fi, none) ∧
      MakeFunction d rp j = .ok (some fj, none) ∧
      fi.ObjectMeta.Labels = d.makeLabels rp ∧
      fj.ObjectMeta.Labels = fi.ObjectMeta.Labels :=
  ⟨_, _, MakeFunction_present d rp i item spec hi0 hitem hf,
    MakeFunction_present d rp j other otherSpec hj0 hother hg, rfl, rfl⟩

/-- Witness of C9 on the first and the last item of the sample request processor. -/
theorem MakeFunction_labels_witness :
    ∃ fi fj : buildv1alpha1.Function String Unit,
      sampleCall 0 = .ok (some fi, none) ∧
      sampleCall 2 = .ok (some fj, none) ∧
      fi.ObjectMeta.Labels = sampleDeps.makeLabels sampleParent ∧
      fj.ObjectMeta.Labels = fi.ObjectMeta.Labels :=
  MakeFunction_labels sampleDeps sampleParent 0 2 ⟨⟨some "js"⟩⟩ ⟨⟨some "java"⟩⟩ "js" "java"
    (by decide) rfl rfl (by decide) rfl rfl

/-- C10. For an index `i` inside the bounds whose item has the inline function
definition `spec`, the function `MakeFunction(rp, i)` returns has `spec`, the
definition of item `i` itself, as its `Spec`; its type metadata and its status are
zero values, and so is every field of its object metadata other than `Name`,
`Namespace`, `OwnerReferences` and `Labels`. -/
theorem MakeFunction_spec_and_frame (d : Deps FunctionSpec)
    (rp : runv1alpha1.RequestProcessor FunctionSpec) (i : Int)
    (item : runv1alpha1.RequestProcessorSpecItem FunctionSpec) (spec : FunctionSpec)
    (h0 : 0 ≤ i) (hitem : rp.Spec[i.toNat]? = some item)
    (hf : item.Build.Function = some spec) :
    ∃ function : buildv1alpha1.Function FunctionSpec FunctionStatus,
      MakeFunction d rp i = .ok (some function, none) ∧
      function.Spec = spec ∧
      function.TypeMeta = metav1.TypeMeta.zero ∧
      function.Status = default ∧
      function.ObjectMeta =
        { metav1.ObjectMeta.zero with
          Name := function.ObjectMeta.Name
          Namespace := function.ObjectMeta.Namespace
          OwnerReferences := function.ObjectMeta.OwnerReferences
          Labels := function.ObjectMeta.Labels } :=
  ⟨_, MakeFunction_present d rp i item spec h0 hitem hf, rfl, rfl, rfl, rfl⟩

/-- Witness of C10 on the last item of the sample request processor, whose inline
function `java` differs from the `js` of the first item. -/
theorem MakeFunction_spec_and_frame_witness :
    ∃ function : buildv1alpha1.Function String Unit,
      sampleCall 2 = .ok (some function, none) ∧
      function.Spec = "java" ∧
      function.TypeMeta = metav1.TypeMeta.zero ∧
      function.Status = default ∧
      function.ObjectMeta =
        { metav1.ObjectMeta.zero with
          Name := function.ObjectMeta.Name
          Namespace := function.ObjectMeta.Namespace
          OwnerReferences := function.ObjectMeta.OwnerReferences
          Labels := function.ObjectMeta.Labels } :=
  MakeFunction_spec_and_frame sampleDeps sampleParent 2 ⟨⟨some "java"⟩⟩ "java" (by decide)
    rfl rfl

end claims

end resources

namespace streamingv1alpha1

/-- C5. A build of a processor that populates both `ContainerRef` and `FunctionRef`,
or neither of them, is rejected with a specification error; a build that is accepted
populates exactly one of the two references and resolves to that one. -/
theorem resolveBuild_exclusive {PodSpec : Type} (s : ProcessorSpec PodSpec)
    (b : Build) (hb : s.Build = some b) :
    (((b.ContainerRef ≠ "" ∧ b.FunctionRef ≠ "") ∨ (b.ContainerRef = "" ∧ b.FunctionRef = "")) →
      (∃ e, s.resolveBuild = .error e) ∧ ∀ t, s.resolveBuild ≠ .ok t) ∧
    (∀ t, s.resolveBuild = .ok t →
      (t = some (.container b.ContainerRef) ∧ b.ContainerRef ≠ "" ∧ b.FunctionRef = "") ∨
      (t = some (.function b.FunctionRef) ∧ b.ContainerRef = "" ∧ b.FunctionRef ≠ "")) := by
  by_cases hc : b.ContainerRef = "" <;> by_cases hfn : b.FunctionRef = "" <;>
    simp [ProcessorSpec.resolveBuild, Build.resolve, hb, hc, hfn]

/-- Witness of C5 on a build that populates both references. -/
theorem resolveBuild_exclusive_witness :
    sampleAmbiguous.resolveBuild = .error .ambiguousBuildReference ∧
    (((("upper" : String) ≠ "" ∧ ("square" : String) ≠ "") ∨
        (("upper" : String) = "" ∧ ("square" : String) = "")) →
      (∃ e, sampleAmbiguous.resolveBuild = .error e) ∧
        ∀ t, sampleAmbiguous.resolveBuild ≠ .ok t) :=
  ⟨rfl, (resolveBuild_exclusive sampleAmbiguous
    { ContainerRef := "upper", FunctionRef := "square" } rfl).1⟩

end streamingv1alpha1
